import Mathlib

/-!
Shallow embedding of `ai_file_classifier.py` (B2CLI AI file classifier).

Conventions used throughout this development:
* Python `int` is embedded as `ℤ` (scores never overflow and Python ints are unbounded).
* Python `float` confidence values and the percentage arithmetic of the report are
  embedded as exact rationals `ℚ`; Python's `round(x, 2)` (round-half-to-even) is
  embedded as exact half-even rounding on `ℚ`.
* `pathlib.Path` decomposition (`name`, `suffix`, `parent`, `parts`) is embedded as
  string functions over POSIX-style paths ('/' separator, empty and "." components
  dropped, a leading "/" contributing an anchor part), mirroring `pathlib`'s
  documented behaviour.
* `path.stat().st_size` is an external effect: it is passed to `analyze_file` as an
  `Option ℤ` argument (`none` models the `OSError` branch of the `try/except`).
* `re.search` of the two fixed patterns (`\d{4}[-_]\d{2}[-_]\d{2}` and `v\d+\.\d+`)
  is embedded as explicit scanning functions; `\d` is modelled as an ASCII digit.
* The filesystem seen by `os.walk` is embedded as a finite tree (`FSEntry`).
-/

namespace B2CLI

/-- Embedding of the `CriticalityLevel` enum. -/
inductive CriticalityLevel where
  | LOW
  | MEDIUM
  | HIGH
  | CRITICAL
deriving DecidableEq, Repr

/-- Embedding of the `FileAnalysis` dataclass. -/
structure FileAnalysis where
  path : String
  criticality : CriticalityLevel
  confidence : ℚ
  reasons : List String
  category : String
  risk_score : ℤ
deriving DecidableEq, Repr

/-- Does the first list occur at the head of the second list? (`str.startswith`). -/
def beginsWith : List Char → List Char → Bool
  | [], _ => true
  | _ :: _, [] => false
  | a :: as, b :: bs => a == b && beginsWith as bs

/-- Substring test on char lists: Python's `needle in hay`. -/
def hasSubList (needle : List Char) : List Char → Bool
  | [] => beginsWith needle []
  | c :: t => beginsWith needle (c :: t) || hasSubList needle t

/-- Python's `needle in hay` on strings. -/
def strHasSub (hay needle : String) : Bool :=
  hasSubList needle.toList hay.toList

/-- Embedding of `str.lower()`: per-character ASCII lowercasing (all the fixed
tables of the classifier are ASCII). Structurally recursive so that concrete
inputs evaluate inside the kernel. -/
def str_lower (s : String) : String :=
  String.mk (s.toList.map Char.toLower)

/-- Splitting a char list on '/', keeping empty segments (`str.split('/')`). -/
def splitOnSlash : List Char → List (List Char)
  | [] => [[]]
  | c :: t =>
      if c == '/' then [] :: splitOnSlash t
      else
        match splitOnSlash t with
        | [] => [[c]]
        | seg :: rest => (c :: seg) :: rest

/-- Does the regex `\d{4}[-_]\d{2}[-_]\d{2}` match at the head of the char list? -/
def dateAt : List Char → Bool
  | d1 :: d2 :: d3 :: d4 :: s1 :: e1 :: e2 :: s2 :: f1 :: f2 :: _ =>
      d1.isDigit && d2.isDigit && d3.isDigit && d4.isDigit &&
      (s1 == '-' || s1 == '_') && e1.isDigit && e2.isDigit &&
      (s2 == '-' || s2 == '_') && f1.isDigit && f2.isDigit
  | _ => false

/-- Does `p` match at the head of some tail of the list? (`re.search` semantics). -/
def anySuffix (p : List Char → Bool) : List Char → Bool
  | [] => p []
  | c :: t => p (c :: t) || anySuffix p t

/-- Embedding of `re.search(r'\d{4}[-_]\d{2}[-_]\d{2}', s)` being non-`None`. -/
def hasDatePattern (s : String) : Bool :=
  anySuffix dateAt s.toList

/-- Helper for the version regex: the list starts with a literal dot then a digit. -/
def dotThenDigit : List Char → Bool
  | '.' :: d :: _ => d.isDigit
  | _ => false

/-- Helper for the version regex: skip further digits, then expect `.` and a digit.
Since digits and `.` are disjoint, greedy matching of `\d+` needs no backtracking. -/
def digitsThenDot : List Char → Bool
  | [] => false
  | c :: t => if c.isDigit then digitsThenDot t else dotThenDigit (c :: t)

/-- Does the regex `v\d+\.\d+` match at the head of the char list? -/
def verAt : List Char → Bool
  | 'v' :: c :: rest => c.isDigit && digitsThenDot rest
  | _ => false

/-- Embedding of `re.search(r'v\d+\.\d+', s)` being non-`None`. -/
def hasVersionPattern (s : String) : Bool :=
  anySuffix verAt s.toList

/-- The `critical_keywords` list of `_analyze_filename`, verbatim from the source. -/
def critical_keywords : List String :=
  ["contrato", "contract", "senha", "password", "key", "chave",
   "backup", "financeiro", "financial", "confidencial", "secret",
   "admin", "root", "master", "private", "legal"]

/-- Embedding of `AIFileClassifier._analyze_filename`: 30 points per keyword of
`critical_keywords` contained in the lower-cased filename, plus 15 for a date
pattern (searched on the original filename), plus 10 for a version pattern
(searched on the lower-cased filename), capped at 60. -/
def analyze_filename (filename : String) : ℤ :=
  let filename_lower := str_lower filename
  let kscore : ℤ := 30 * ((critical_keywords.filter (fun k => strHasSub filename_lower k)).length : ℤ)
  let dscore : ℤ := if hasDatePattern filename then 15 else 0
  let vscore : ℤ := if hasVersionPattern filename_lower then 10 else 0
  min (kscore + dscore + vscore) 60

/-- The `extension_weights` table. The Python weights are the floats w/10 for the
integers stored here; `int(w * 50)` in Python equals `(w tenths) * 5` exactly for
every entry of this table (each product `(w/10)*50` of IEEE doubles rounds to the
exact integer `w*5`, and `int` truncation returns it). -/
def extension_weights : List (String × ℤ) :=
  [(".pdf", 7), (".docx", 6), (".xlsx", 8),
   (".py", 4), (".rs", 4), (".js", 3), (".sql", 9),
   (".env", 9), (".config", 6), (".json", 5),
   (".bak", 8), (".dump", 9),
   (".tmp", 1), (".cache", 1), (".log", 2)]

/-- First-match association lookup (Python dict lookup; the keys are distinct). -/
def assoc_find (k : String) : List (String × ℤ) → Option ℤ
  | [] => none
  | (k2, v) :: rest => if k = k2 then some v else assoc_find k rest

/-- Embedding of `AIFileClassifier._analyze_extension`: table weight times 50
(floored) for known extensions, flat 5 otherwise. -/
def analyze_extension (extension : String) : ℤ :=
  match assoc_find (str_lower extension) extension_weights with
  | some tenths => tenths * 5
  | none => 5

/-- The `critical_dirs` list, verbatim from the source. -/
def critical_dirs : List String :=
  ["contracts", "financial", "backup", "keys",
   "passwords", "confidential", "legal"]

/-- Embedding of `len(Path(dir_path).parts)`: split on '/', drop empty and "."
components, count a leading '/' as the anchor part. -/
def path_parts (p : String) : List String :=
  let comps := ((splitOnSlash p.toList).map (fun l => String.mk l)).filter (fun c => !(c == "") && !(c == "."))
  if beginsWith ['/'] p.toList then "/" :: comps else comps

/-- Embedding of `AIFileClassifier._analyze_directory` (the directory signal):
50 points if any critical directory name is a substring of the lower-cased
directory path (the loop `break`s after the first match, so at most once),
plus 10 if the path depth exceeds 5, capped at 60. -/
def analyze_directory_score (dir_path : String) : ℤ :=
  let dir_lower := str_lower dir_path
  let score : ℤ := if critical_dirs.any (fun d => strHasSub dir_lower d) then 50 else 0
  let depth := (path_parts dir_path).length
  min (score + (if depth > 5 then 10 else 0)) 60

/-- Embedding of `AIFileClassifier._analyze_size`. -/
def analyze_size (size_bytes : ℤ) : ℤ :=
  if size_bytes > 100000000 then 25
  else if size_bytes > 10000000 then 15
  else if size_bytes > 1000000 then 10
  else if size_bytes < 1024 then 15
  else 5

/-- Embedding of `AIFileClassifier._categorize_file` (keyed on `path.suffix`). -/
def categorize_file (suffix : String) : String :=
  let ext := str_lower suffix
  if [".pdf", ".docx", ".doc", ".txt"].contains ext then "Document"
  else if [".xlsx", ".csv", ".xls"].contains ext then "Spreadsheet"
  else if [".py", ".rs", ".js", ".java", ".cpp", ".c"].contains ext then "Source Code"
  else if [".sql", ".db", ".sqlite"].contains ext then "Database"
  else if [".json", ".yaml", ".yml", ".toml", ".env"].contains ext then "Configuration"
  else if [".jpg", ".png", ".gif", ".bmp"].contains ext then "Image"
  else if [".mp4", ".avi", ".mov"].contains ext then "Video"
  else if [".zip", ".tar", ".gz", ".rar"].contains ext then "Archive"
  else if [".log", ".txt"].contains ext then "Log"
  else "Other"

/-- Round-half-to-even on rationals (Python's `round` tie behaviour). -/
def round_half_even (q : ℚ) : ℤ :=
  let f := ⌊q⌋
  if q - f < 1/2 then f
  else if q - f > 1/2 then f + 1
  else if f % 2 = 0 then f else f + 1

/-- Embedding of Python's `round(x, 2)` on exact rationals. -/
def round2 (q : ℚ) : ℚ :=
  (round_half_even (q * 100) : ℚ) / 100

/-- One-decimal formatting (the `:.1f` conversion), on exact rationals. -/
def fmt1 (q : ℚ) : String :=
  let n := round_half_even (q * 10)
  toString (n / 10) ++ "." ++ toString (n % 10)

/-- Loop body of `AIFileClassifier._format_size`. -/
def format_size_go : ℚ → List String → String
  | s, [] => fmt1 s ++ "TB"
  | s, u :: us => if s < 1024 then fmt1 s ++ u else format_size_go (s / 1024) us

/-- Embedding of `AIFileClassifier._format_size`. -/
def format_size (size_bytes : ℤ) : String :=
  format_size_go (size_bytes : ℚ) ["B", "KB", "MB", "GB"]

/-- Embedding of `Path(p).name`: the last part, or "" when only an anchor is left. -/
def path_name (p : String) : String :=
  match (path_parts p).getLast? with
  | none => ""
  | some s => if s == "/" then "" else s

/-- Embedding of `Path(p).suffix`: the final dot-led segment of the name, provided
the last dot is neither the first nor the last character of the name. -/
def path_suffix (p : String) : String :=
  let s := (path_name p).toList
  match s.reverse.findIdx? (fun c => c == '.') with
  | none => ""
  | some j => if 1 ≤ j ∧ j < s.length - 1 then String.mk ((s.reverse.take (j + 1)).reverse) else ""

/-- Rebuild a path string from its parts. -/
def join_parts : List String → String
  | [] => "."
  | ["/"] => "/"
  | "/" :: rest => "/" ++ String.intercalate "/" rest
  | l => String.intercalate "/" l

/-- Embedding of `str(Path(p).parent)`: drop the last part. -/
def path_parent_str (p : String) : String :=
  match path_parts p with
  | [] => "."
  | ["/"] => "/"
  | ps => join_parts ps.dropLast

/-- The size signal actually accumulated by `analyze_file`: `0` when the
`path.stat()` call raised (`OSError` branch), `_analyze_size` otherwise. -/
def size_signal : Option ℤ → ℤ
  | none => 0
  | some s => analyze_size s

/-- The pre-clamp sum of the four signals accumulated by `analyze_file`. -/
def raw_score (p : String) (sz : Option ℤ) : ℤ :=
  analyze_filename (path_name p) + analyze_extension (path_suffix p) +
    analyze_directory_score (path_parent_str p) + size_signal sz

/-- Embedding of `AIFileClassifier.analyze_file`. The second argument is the
outcome of `path.stat().st_size` (`none` models the swallowed `OSError`). -/
def analyze_file (file_path : String) (stat_size : Option ℤ) : FileAnalysis :=
  let name := path_name file_path
  let suffix := path_suffix file_path
  let parent := path_parent_str file_path
  let filename_score := analyze_filename name
  let ext_score := analyze_extension suffix
  let dir_score := analyze_directory_score parent
  let size_score := size_signal stat_size
  let risk_score := filename_score + ext_score + dir_score + size_score
  { path := file_path
    criticality :=
      if risk_score ≥ 80 then CriticalityLevel.CRITICAL
      else if risk_score ≥ 60 then CriticalityLevel.HIGH
      else if risk_score ≥ 30 then CriticalityLevel.MEDIUM
      else CriticalityLevel.LOW
    confidence :=
      if risk_score ≥ 80 then 9/10
      else if risk_score ≥ 60 then 8/10
      else if risk_score ≥ 30 then 7/10
      else 6/10
    reasons :=
      (if filename_score > 50 then ["Nome suspeito: " ++ name] else [])
      ++ (if ext_score > 30 then ["Extensão crítica: " ++ suffix] else [])
      ++ (if dir_score > 40 then ["Diretório sensível: " ++ path_name parent] else [])
      ++ (match stat_size with
          | none => []
          | some s => if analyze_size s > 20 then ["Tamanho significativo: " ++ format_size s] else [])
    category := categorize_file suffix
    risk_score := min risk_score 100 }

/-- Spec-side definition (for refinement): the criticality bracket of the §4.1
table, as a function of the raw (pre-clamp) sum. -/
def spec_bracket_of (raw : ℤ) : CriticalityLevel :=
  if raw ≥ 80 then CriticalityLevel.CRITICAL
  else if raw ≥ 60 then CriticalityLevel.HIGH
  else if raw ≥ 30 then CriticalityLevel.MEDIUM
  else CriticalityLevel.LOW

/-- Spec-side definition (for refinement): confidence as a pure function of the
criticality level, per the §4.1 table. -/
def spec_confidence_of : CriticalityLevel → ℚ
  | CriticalityLevel.CRITICAL => 9/10
  | CriticalityLevel.HIGH => 8/10
  | CriticalityLevel.MEDIUM => 7/10
  | CriticalityLevel.LOW => 6/10

/-- The filter of `generate_risk_report`: criticality in [CRITICAL, HIGH]. -/
def critHighB (a : FileAnalysis) : Bool :=
  a.criticality == CriticalityLevel.CRITICAL || a.criticality == CriticalityLevel.HIGH

/-- The order used by `sorted(..., key=lambda x: x.risk_score, reverse=True)`:
`a` precedes-or-ties `b` when `b.risk_score ≤ a.risk_score`. Python's `sorted`
is stable; a stable insertion sort under this total preorder is extensionally
the same function. -/
def byDescRisk (a b : FileAnalysis) : Prop :=
  b.risk_score ≤ a.risk_score

instance : DecidableRel byDescRisk :=
  fun a b => inferInstanceAs (Decidable (b.risk_score ≤ a.risk_score))

instance : IsTotal FileAnalysis byDescRisk :=
  ⟨fun a b => le_total b.risk_score a.risk_score⟩

instance : IsTrans FileAnalysis byDescRisk :=
  ⟨fun _ _ _ hab hbc => le_trans hbc hab⟩

/-- The dict built per entry of `top_critical_files`: {path, risk_score, reasons}. -/
def reduceEntry (a : FileAnalysis) : String × ℤ × List String :=
  (a.path, a.risk_score, a.reasons)

/-- Embedding of the `top_critical_files` computation of `generate_risk_report`:
filter to CRITICAL/HIGH, stable-sort by descending risk score, keep 10, reduce. -/
def top_critical_files (analyses : List FileAnalysis) : List (String × ℤ × List String) :=
  (((analyses.filter critHighB).insertionSort byDescRisk).take 10).map reduceEntry

/-- One step of the `criticality_counts[analysis.criticality] += 1` loop. -/
def crit_count_step (m : CriticalityLevel → ℕ) (a : FileAnalysis) : CriticalityLevel → ℕ :=
  fun lvl => if lvl = a.criticality then m lvl + 1 else m lvl

/-- Embedding of the `criticality_counts` dict (all four keys initialised to 0). -/
def criticality_counts (analyses : List FileAnalysis) : CriticalityLevel → ℕ :=
  analyses.foldl crit_count_step (fun _ => 0)

/-- One step of `category_counts[cat] = category_counts.get(cat, 0) + 1` on an
insertion-ordered association list (Python dicts preserve insertion order). -/
def bump (m : List (String × ℕ)) (k : String) : List (String × ℕ) :=
  if m.any (fun pr => pr.1 == k) then m.map (fun pr => if pr.1 == k then (pr.1, pr.2 + 1) else pr)
  else m ++ [(k, 1)]

/-- Embedding of the `category_counts` dict of `generate_risk_report`. -/
def category_counts (analyses : List FileAnalysis) : List (String × ℕ) :=
  analyses.foldl (fun m a => bump m a.category) []

/-- Embedding of the report dict returned by `generate_risk_report`. The two
fixed-key sub-dicts are kept as insertion-ordered association lists so that the
presence of keys is observable. -/
structure RiskReport where
  total_files : ℕ
  criticality_distribution : List (String × ℕ)
  category_distribution : List (String × ℕ)
  risk_percentage : List (String × ℚ)
  top_critical_files : List (String × ℤ × List String)
deriving DecidableEq, Repr

/-- Embedding of `AIFileClassifier.generate_risk_report`; `none` models the empty
dict `{}` returned for an empty input. -/
def generate_risk_report (analyses : List FileAnalysis) : Option RiskReport :=
  if analyses.length = 0 then none
  else
    let counts := criticality_counts analyses
    let total : ℚ := (analyses.length : ℚ)
    some
      { total_files := analyses.length
        criticality_distribution :=
          [("critical", counts CriticalityLevel.CRITICAL),
           ("high", counts CriticalityLevel.HIGH),
           ("medium", counts CriticalityLevel.MEDIUM),
           ("low", counts CriticalityLevel.LOW)]
        category_distribution := category_counts analyses
        risk_percentage :=
          [("critical", round2 ((counts CriticalityLevel.CRITICAL : ℚ) / total * 100)),
           ("high", round2 ((counts CriticalityLevel.HIGH : ℚ) / total * 100))]
        top_critical_files := top_critical_files analyses }

/-- A filesystem tree node, as enumerated by `os.walk`: a regular file (with the
outcome of its later `stat` call) or a directory with children. -/
inductive FSEntry where
  | file (name : String) (size : Option ℤ)
  | dir (name : String) (children : List FSEntry)
deriving Repr

/-- The pruned directory names of `analyze_directory`, verbatim from the source. -/
def skip_dirs : List String :=
  [".git", "__pycache__", "node_modules"]

/-- The regular files of one directory level, tagged with their ancestor chain. -/
def files_at (anc : List String) (entries : List FSEntry) : List (List String × String × Option ℤ) :=
  entries.filterMap (fun e =>
    match e with
    | FSEntry.file n sz => some (anc, n, sz)
    | FSEntry.dir _ _ => none)

/-- Recursive descent of `os.walk` below one directory level, with the
`dirs[:] = [d for d in dirs if d not in [...]]` pruning applied at every level. -/
def walk_dirs : List String → List FSEntry → List (List String × String × Option ℤ)
  | _, [] => []
  | anc, FSEntry.file _ _ :: rest => walk_dirs anc rest
  | anc, FSEntry.dir n children :: rest =>
      (if n ∈ skip_dirs then []
       else files_at (anc ++ [n]) children ++ walk_dirs (anc ++ [n]) children)
      ++ walk_dirs anc rest

/-- Embedding of the file enumeration of `os.walk` inside `analyze_directory`:
each produced triple is (chain of directory names below the root, filename,
stat outcome). `os.walk` is top-down, so a level's files precede its subtrees. -/
def walk_files (anc : List String) (entries : List FSEntry) : List (List String × String × Option ℤ) :=
  files_at anc entries ++ walk_dirs anc entries

/-- Embedding of `AIFileClassifier.analyze_directory` over a filesystem tree. -/
def analyze_directory (directory_path : String) (tree : List FSEntry) : List FileAnalysis :=
  (walk_files [] tree).map
    (fun t => analyze_file (String.intercalate "/" (directory_path :: (t.1 ++ [t.2.1]))) t.2.2)

/-- Concrete analysis records used to witness the report theorems. -/
def sampleCritical : FileAnalysis :=
  { path := "backup/dump.sql", criticality := CriticalityLevel.CRITICAL, confidence := 9/10,
    reasons := ["Extensão crítica: .sql"], category := "Database", risk_score := 95 }

/-- A second concrete analysis record used to witness the report theorems. -/
def sampleLow : FileAnalysis :=
  { path := "notes.tmp", criticality := CriticalityLevel.LOW, confidence := 6/10,
    reasons := [], category := "Other", risk_score := 20 }

/-- The filename signal is non-negative. -/
theorem analyze_filename_nonneg (fn : String) : 0 ≤ analyze_filename fn := by
  simp only [analyze_filename]
  refine le_min ?_ (by norm_num)
  split_ifs <;> omega

/-- The filename signal is capped at 60. -/
theorem analyze_filename_le60 (fn : String) : analyze_filename fn ≤ 60 := by
  simp only [analyze_filename]
  exact min_le_right _ _

/-- A successful association lookup returns a pair of the list. -/
theorem assoc_find_mem {k : String} {v : ℤ} :
    ∀ {l : List (String × ℤ)}, assoc_find k l = some v → (k, v) ∈ l := by
  intro l
  induction l with
  | nil => intro h; simp [assoc_find] at h
  | cons p rest ih =>
    obtain ⟨k2, v2⟩ := p
    intro h
    simp only [assoc_find] at h
    split at h
    · next heq =>
      obtain rfl := Option.some.inj h
      subst heq
      exact List.mem_cons_self _ _
    · exact List.mem_cons_of_mem _ (ih h)

/-- The extension signal lies in [5, 45]: every table weight is between 0.1 and
0.9 (scores 5 to 45), and unknown extensions score the flat 5. -/
theorem analyze_extension_bounds (e : String) :
    5 ≤ analyze_extension e ∧ analyze_extension e ≤ 45 := by
  cases h : assoc_find (str_lower e) extension_weights with
  | none => simp [analyze_extension, h]
  | some t =>
    have hm := assoc_find_mem h
    have hw : ∀ pr ∈ extension_weights, 1 ≤ pr.2 ∧ pr.2 ≤ 9 := by decide
    have hb := hw (str_lower e, t) hm
    simp only [analyze_extension, h]
    simp only at hb
    omega

/-- The directory signal is non-negative. -/
theorem analyze_directory_score_nonneg (d : String) : 0 ≤ analyze_directory_score d := by
  simp only [analyze_directory_score]
  refine le_min ?_ (by norm_num)
  split_ifs <;> omega

/-- The directory signal is capped at 60. -/
theorem analyze_directory_score_le60 (d : String) : analyze_directory_score d ≤ 60 := by
  simp only [analyze_directory_score]
  exact min_le_right _ _

/-- The size signal lies in [5, 25] when the size is obtainable. -/
theorem analyze_size_bounds (n : ℤ) : 5 ≤ analyze_size n ∧ analyze_size n ≤ 25 := by
  unfold analyze_size
  split_ifs <;> norm_num

/-- The accumulated size signal lies in [0, 25]. -/
theorem size_signal_bounds (sz : Option ℤ) : 0 ≤ size_signal sz ∧ size_signal sz ≤ 25 := by
  cases sz with
  | none => simp [size_signal]
  | some s =>
    have := analyze_size_bounds s
    simp only [size_signal]
    omega

/-- The pre-clamp sum is at least 5 (the extension signal alone guarantees it). -/
theorem raw_score_ge5 (p : String) (sz : Option ℤ) : 5 ≤ raw_score p sz := by
  unfold raw_score
  have h1 := analyze_filename_nonneg (path_name p)
  have h2 := (analyze_extension_bounds (path_suffix p)).1
  have h3 := analyze_directory_score_nonneg (path_parent_str p)
  have h4 := (size_signal_bounds sz).1
  omega

/-- The risk score of `analyze_file` is the clamp of the pre-clamp sum. -/
theorem analyze_file_risk_score (p : String) (sz : Option ℤ) :
    (analyze_file p sz).risk_score = min (raw_score p sz) 100 := rfl

/-- The criticality of `analyze_file` is the §4.1 bracket of the pre-clamp sum. -/
theorem analyze_file_criticality (p : String) (sz : Option ℤ) :
    (analyze_file p sz).criticality = spec_bracket_of (raw_score p sz) := rfl

/-- C1: for every input path, `analyze_file` assigns criticality from the
pre-clamp sum of the four signals per the §4.1 table (the bracket lookup happens
before the clamp of `risk_score` to 100, which is taken separately on the same
pre-clamp sum), and confidence is the pure function of criticality given by the
table (CRITICAL → 0.90, HIGH → 0.80, MEDIUM → 0.70, LOW → 0.60). -/
theorem claim1_bracket_on_preclamp_sum (p : String) (sz : Option ℤ) :
    (analyze_file p sz).criticality = spec_bracket_of (raw_score p sz) ∧
    (analyze_file p sz).confidence = spec_confidence_of ((analyze_file p sz).criticality) ∧
    (analyze_file p sz).risk_score = min (raw_score p sz) 100 := by
  refine ⟨analyze_file_criticality p sz, ?_, analyze_file_risk_score p sz⟩
  rw [analyze_file_criticality p sz]
  show (if raw_score p sz ≥ 80 then (9:ℚ)/10
    else if raw_score p sz ≥ 60 then 8/10
    else if raw_score p sz ≥ 30 then 7/10 else 6/10) = _
  unfold spec_bracket_of spec_confidence_of
  split_ifs <;> rfl

/-- C2: for every input path string and stat outcome, the `risk_score` field of
the returned `FileAnalysis` is an integer with 0 ≤ risk_score ≤ 100. -/
theorem claim2_risk_score_in_range (p : String) (sz : Option ℤ) :
    0 ≤ (analyze_file p sz).risk_score ∧ (analyze_file p sz).risk_score ≤ 100 := by
  rw [analyze_file_risk_score]
  constructor
  · exact le_min (by have := raw_score_ge5 p sz; omega) (by norm_num)
  · exact min_le_right _ _

/-- C3: each of the four signals is bounded independently of the others: the
filename signal never exceeds 60, the directory signal never exceeds 60, the
extension signal never exceeds 45, and the size signal never exceeds 25. -/
theorem claim3_signal_caps (fn ext dirp : String) (sz : ℤ) :
    analyze_filename fn ≤ 60 ∧ analyze_extension ext ≤ 45 ∧
    analyze_directory_score dirp ≤ 60 ∧ analyze_size sz ≤ 25 :=
  ⟨analyze_filename_le60 fn, (analyze_extension_bounds ext).2,
   analyze_directory_score_le60 dirp, (analyze_size_bounds sz).2⟩

/-- C4 counterexample: the source keyword list holds the Portuguese spelling
"confidencial", not "confidential"; the filename "confidential" contains the
substring "confidential" yet its filename signal is 0, not at least 30. -/
theorem claim4_counterexample :
    strHasSub (str_lower "confidential") "confidential" = true ∧
    analyze_filename "confidential" < 30 := by
  constructor
  · decide
  · decide

/-- C4 (amended): the filename signal adds 30 points for each (not
first-match-only) case-insensitive substring match of a keyword from the fixed
list contract/contrato, password/senha, key/chave, backup, financial/financeiro,
confidencial, secret, admin, root, master, private, legal, before capping at 60;
in particular, for every filename containing the substring "confidencial", the
filename signal is at least 30. -/
theorem claim4_amended_thirty_per_keyword (fn : String)
    (h : strHasSub (str_lower fn) "confidencial" = true) :
    analyze_filename fn =
      min (30 * ((critical_keywords.filter (fun k => strHasSub (str_lower fn) k)).length : ℤ)
        + (if hasDatePattern fn then 15 else 0)
        + (if hasVersionPattern (str_lower fn) then 10 else 0)) 60 ∧
    30 ≤ analyze_filename fn := by
  constructor
  · rfl
  · have hmem : "confidencial" ∈ critical_keywords.filter (fun k => strHasSub (str_lower fn) k) :=
      List.mem_filter.mpr ⟨by decide, h⟩
    have hlen : 0 < (critical_keywords.filter (fun k => strHasSub (str_lower fn) k)).length :=
      List.length_pos.mpr (List.ne_nil_of_mem hmem)
    have hcast : (1:ℤ) ≤ ((critical_keywords.filter (fun k => strHasSub (str_lower fn) k)).length : ℤ) := by
      exact_mod_cast hlen
    simp only [analyze_filename]
    refine le_min ?_ (by norm_num)
    split_ifs <;> omega

/-- C4 amended-claim witness at the concrete filename "confidencial". -/
theorem claim4_amended_witness : 30 ≤ analyze_filename "confidencial" :=
  (claim4_amended_thirty_per_keyword "confidencial" (by decide)).2

/-- C9: when reading the file size fails, the failure is swallowed: the size
signal contributes 0, no size reason is appended (the reasons are exactly the
three metadata reasons, and the stat-success reasons are the same list plus the
conditional size reason), and a `FileAnalysis` is still returned. -/
theorem claim9_stat_failure_swallowed (p : String) (s : ℤ) :
    (analyze_file p none).risk_score =
      min (analyze_filename (path_name p) + analyze_extension (path_suffix p) +
        analyze_directory_score (path_parent_str p)) 100 ∧
    (analyze_file p none).reasons =
      (if analyze_filename (path_name p) > 50 then ["Nome suspeito: " ++ path_name p] else [])
      ++ (if analyze_extension (path_suffix p) > 30 then ["Extensão crítica: " ++ path_suffix p] else [])
      ++ (if analyze_directory_score (path_parent_str p) > 40 then
            ["Diretório sensível: " ++ path_name (path_parent_str p)] else []) ∧
    (analyze_file p (some s)).reasons =
      (analyze_file p none).reasons ++
        (if analyze_size s > 20 then ["Tamanho significativo: " ++ format_size s] else []) := by
  refine ⟨?_, ?_, ?_⟩
  · simp [analyze_file, size_signal]
  · simp [analyze_file]
  · simp [analyze_file, List.append_assoc]

/-- C10 (implicit): the risk score is always at least 5, because the extension
signal alone contributes at least 5 and no signal is negative; the lower clamp
at 0 is never active, and every LOW file scores in [5, 29]. -/
theorem claim10_low_files_in_5_29 (p : String) (sz : Option ℤ) (e : String) :
    5 ≤ analyze_extension e ∧
    5 ≤ (analyze_file p sz).risk_score ∧
    ((analyze_file p sz).criticality = CriticalityLevel.LOW →
      (analyze_file p sz).risk_score ≤ 29) := by
  refine ⟨(analyze_extension_bounds e).1, ?_, ?_⟩
  · rw [analyze_file_risk_score]
    exact le_min (raw_score_ge5 p sz) (by norm_num)
  · intro h
    rw [analyze_file_criticality] at h
    unfold spec_bracket_of at h
    rw [analyze_file_risk_score]
    split_ifs at h with h1 h2 h3
    all_goals try cases h
    omega

/-- C10 witness: a concrete LOW file whose risk score lies in [5, 29]. -/
theorem claim10_witness : (analyze_file "x.tmp" none).risk_score ≤ 29 :=
  (claim10_low_files_in_5_29 "x.tmp" none ".tmp").2.2 (by decide)

/-- Inserting with `orderedInsert` preserves, for every risk value `s`, the
subsequence of elements whose risk score is `s`: the inserted element lands in
front of exactly the equal-or-smaller scores (this is the stability of the
sort). -/
theorem filter_risk_orderedInsert (s : ℤ) (a : FileAnalysis) (l : List FileAnalysis) :
    (l.orderedInsert byDescRisk a).filter (fun x => x.risk_score == s) =
      if a.risk_score == s then a :: l.filter (fun x => x.risk_score == s)
      else l.filter (fun x => x.risk_score == s) := by
  induction l with
  | nil =>
    simp [List.orderedInsert, List.filter_cons]
  | cons b t ih =>
    by_cases hr : byDescRisk a b
    · rw [List.orderedInsert_of_le _ _ hr, List.filter_cons]
    · have hab : List.orderedInsert byDescRisk a (b :: t) = b :: List.orderedInsert byDescRisk a t := by
        simp [List.orderedInsert, hr]
      have hlt : a.risk_score < b.risk_score := not_le.mp hr
      rw [hab, List.filter_cons, ih, List.filter_cons]
      by_cases pb : (b.risk_score == s) = true
      · have hbs : b.risk_score = s := by simpa using pb
        have pa : ¬ ((a.risk_score == s) = true) := by
          intro hc
          have : a.risk_score = s := by simpa using hc
          omega
        simp [pb, pa]
      · simp [pb]

/-- Stability of the insertion sort used for `top_critical_files`: for every
risk value, the subsequence of analyses with that risk score is unchanged, so
ties keep their original input order. -/
theorem filter_risk_insertionSort (s : ℤ) (l : List FileAnalysis) :
    (l.insertionSort byDescRisk).filter (fun x => x.risk_score == s) =
      l.filter (fun x => x.risk_score == s) := by
  induction l with
  | nil => rfl
  | cons a t ih =>
    rw [List.insertionSort, filter_risk_orderedInsert, ih, List.filter_cons]

/-- C5: `top_critical_files` is exactly the CRITICAL/HIGH analyses, stably
sorted by descending risk score (a permutation of the filtered input that is
pairwise non-increasing and preserves, for each risk value, the original
relative order), truncated to at most 10 entries, each reduced to
(path, risk_score, reasons). -/
theorem claim5_top_critical_files (analyses : List FileAnalysis) :
    top_critical_files analyses =
      (((analyses.filter critHighB).insertionSort byDescRisk).take 10).map reduceEntry ∧
    (top_critical_files analyses).length ≤ 10 ∧
    List.Perm ((analyses.filter critHighB).insertionSort byDescRisk) (analyses.filter critHighB) ∧
    List.Pairwise (fun x y : String × ℤ × List String => y.2.1 ≤ x.2.1) (top_critical_files analyses) ∧
    (∀ s : ℤ, ((analyses.filter critHighB).insertionSort byDescRisk).filter (fun a => a.risk_score == s)
        = (analyses.filter critHighB).filter (fun a => a.risk_score == s)) := by
  refine ⟨rfl, ?_, List.perm_insertionSort _ _, ?_, fun s => filter_risk_insertionSort s _⟩
  · simp only [top_critical_files, List.length_map, List.length_take]
    exact min_le_left _ _
  · have hs : List.Sorted byDescRisk ((analyses.filter critHighB).insertionSort byDescRisk) :=
      List.sorted_insertionSort byDescRisk _
    have ht : List.Pairwise byDescRisk
        ((((analyses.filter critHighB).insertionSort byDescRisk)).take 10) :=
      List.Pairwise.sublist (List.take_sublist 10 _) hs
    exact List.pairwise_map.mpr (ht.imp (fun h => h))

/-- Unfolding the counting fold of `generate_risk_report`: the fold starting
from `m` adds, per level, the number of analyses with that criticality. -/
theorem foldl_crit_count (l : List FileAnalysis) (m : CriticalityLevel → ℕ)
    (lvl : CriticalityLevel) :
    l.foldl crit_count_step m lvl = m lvl + (l.filter (fun a => a.criticality == lvl)).length := by
  induction l generalizing m with
  | nil => simp
  | cons a t ih =>
    rw [List.foldl_cons, ih]
    simp only [crit_count_step]
    rw [List.filter_cons]
    by_cases hc : a.criticality = lvl
    · rw [if_pos hc.symm, if_pos (by simp [hc])]
      simp only [List.length_cons]
      omega
    · rw [if_neg (fun hh => hc hh.symm), if_neg (by simp [hc])]

/-- The counting dict of `generate_risk_report` counts exactly the analyses of
each criticality level. -/
theorem criticality_counts_eq (l : List FileAnalysis) (lvl : CriticalityLevel) :
    criticality_counts l lvl = (l.filter (fun a => a.criticality == lvl)).length := by
  unfold criticality_counts
  rw [foldl_crit_count]
  simp

/-- C6: `generate_risk_report` applied to the empty sequence returns the empty
mapping (not an error), and applied to any non-empty sequence its
`criticality_distribution` contains entries for all four levels (critical,
high, medium, low) even when a level's count is zero. -/
theorem claim6_empty_report_and_all_levels (l : List FileAnalysis) :
    generate_risk_report [] = none ∧
    (l ≠ [] → ∃ r, generate_risk_report l = some r ∧
      r.criticality_distribution.map Prod.fst = ["critical", "high", "medium", "low"]) := by
  constructor
  · rfl
  · intro h
    have hne : l.length ≠ 0 := fun hh => h (List.length_eq_zero.mp hh)
    simp only [generate_risk_report, if_neg hne]
    exact ⟨_, rfl, rfl⟩

/-- C6 witness: a concrete one-element report carrying all four level keys. -/
theorem claim6_witness :
    ∃ r, generate_risk_report [sampleCritical] = some r ∧
      r.criticality_distribution.map Prod.fst = ["critical", "high", "medium", "low"] :=
  (claim6_empty_report_and_all_levels [sampleCritical]).2 (by simp)

/-- C7: for every non-empty input, the report's `risk_percentage` entries are
`round(C/N*100, 2)` for the CRITICAL count and the HIGH count respectively
(exact-rational embedding of the Python float arithmetic, with Python's
half-even `round`). -/
theorem claim7_risk_percentage (l : List FileAnalysis) (h : l ≠ []) :
    ∃ r, generate_risk_report l = some r ∧
      r.risk_percentage =
        [("critical", round2 (((l.filter (fun a => a.criticality == CriticalityLevel.CRITICAL)).length : ℚ)
            / (l.length : ℚ) * 100)),
         ("high", round2 (((l.filter (fun a => a.criticality == CriticalityLevel.HIGH)).length : ℚ)
            / (l.length : ℚ) * 100))] := by
  have hne : l.length ≠ 0 := fun hh => h (List.length_eq_zero.mp hh)
  simp only [generate_risk_report, if_neg hne]
  refine ⟨_, rfl, ?_⟩
  simp only [criticality_counts_eq]

/-- C7 witness: report over two concrete analyses, one CRITICAL and one LOW. -/
theorem claim7_witness :
    ∃ r, generate_risk_report [sampleCritical, sampleLow] = some r ∧
      r.risk_percentage =
        [("critical", round2 ((([sampleCritical, sampleLow].filter
            (fun a => a.criticality == CriticalityLevel.CRITICAL)).length : ℚ)
            / (([sampleCritical, sampleLow] : List FileAnalysis).length : ℚ) * 100)),
         ("high", round2 ((([sampleCritical, sampleLow].filter
            (fun a => a.criticality == CriticalityLevel.HIGH)).length : ℚ)
            / (([sampleCritical, sampleLow] : List FileAnalysis).length : ℚ) * 100))] :=
  claim7_risk_percentage [sampleCritical, sampleLow] (by simp)

/-- Every triple produced by `files_at` carries exactly the ancestor chain it
was invoked with. -/
theorem files_at_anc (anc : List String) (entries : List FSEntry) (p : List String)
    (n : String) (sz : Option ℤ) (h : (p, n, sz) ∈ files_at anc entries) : p = anc := by
  simp only [files_at, List.mem_filterMap] at h
  obtain ⟨e, _, hmap⟩ := h
  cases e with
  | file n2 sz2 =>
    simp only [Option.some.injEq, Prod.mk.injEq] at hmap
    exact hmap.1.symm
  | dir _ _ => simp at hmap

/-- Every triple produced below an ancestor chain `anc` by the pruned walk has
path `anc ++ q` for a chain `q` of directory names none of which is a pruned
name: pruned directories are never descended into, at any level. -/
theorem walk_dirs_clean :
    ∀ (anc : List String) (entries : List FSEntry) (p : List String) (n : String) (sz : Option ℤ),
      (p, n, sz) ∈ walk_dirs anc entries →
      ∃ q, p = anc ++ q ∧ ∀ d ∈ q, d ∉ skip_dirs := by
  intro anc entries
  induction anc, entries using walk_dirs.induct with
  | case1 anc =>
    intro p n sz h
    rw [walk_dirs] at h
    cases h
  | case2 anc fname fsz rest ih =>
    intro p n sz h
    rw [walk_dirs] at h
    exact ih p n sz h
  | case3 anc dn children rest ih1 ih2 =>
    intro p n sz h
    rw [walk_dirs] at h
    rcases List.mem_append.mp h with h1 | h2
    · by_cases hskip : dn ∈ skip_dirs
      · rw [if_pos hskip] at h1
        cases h1
      · rw [if_neg hskip] at h1
        rcases List.mem_append.mp h1 with hf | hw
        · refine ⟨[dn], files_at_anc (anc ++ [dn]) children p n sz hf, ?_⟩
          intro d hd
          rcases List.mem_singleton.mp hd with rfl
          exact hskip
        · obtain ⟨q, rfl, hq⟩ := ih1 p n sz hw
          refine ⟨dn :: q, by simp, ?_⟩
          intro d hd
          rcases List.mem_cons.mp hd with rfl | hdq
          · exact hskip
          · exact hq d hdq
    · exact ih2 p n sz h2

/-- C8: during the `analyze_directory` traversal no subdirectory named `.git`,
`__pycache__` or `node_modules` is ever descended into, at every traversal
level: every file enumerated by the walk has an ancestor chain free of those
names, so no file below such a directory appears in the returned sequence. -/
theorem claim8_never_descend_skip_dirs (tree : List FSEntry) (p : List String)
    (n : String) (sz : Option ℤ) (h : (p, n, sz) ∈ walk_files [] tree) :
    ∀ d ∈ p, d ∉ skip_dirs := by
  rcases List.mem_append.mp (by simpa only [walk_files] using h) with h1 | h2
  · have hp := files_at_anc [] tree p n sz h1
    subst hp
    intro d hd
    cases hd
  · obtain ⟨q, rfl, hq⟩ := walk_dirs_clean [] tree p n sz h2
    simpa using hq

/-- C8 witness: a concrete walked file whose single ancestor is not pruned. -/
theorem claim8_witness : "sub" ∉ skip_dirs :=
  claim8_never_descend_skip_dirs [FSEntry.dir "sub" [FSEntry.file "f.txt" none]]
    ["sub"] "f.txt" none (by simp [walk_files, walk_dirs, files_at, skip_dirs])
    "sub" (by simp)

end B2CLI
